import Mathlib

/-!
A verification development for the go-kinesis consumer library.

Part 1 embeds the per-shard runner's `process` tick. The runner implementation
is not part of the visible sources (only its unit tests are), so `process` and
its collaborators are modelled from the specification (§4.1 "The loop"), and
checked for consistency against the visible unit tests' expectations.

Part 2 embeds the `tail` CLI handler from `tools/kinesis/tail/main.go`, which
is visible source code.
-/

namespace GoKinesis

/-- Checkpoint strategies recognized by the consumer
(`AfterRecord`, `AfterRecordBatch`, `Manual`). -/
inductive CheckpointStrategy where
  | AfterRecord
  | AfterRecordBatch
  | Manual
deriving DecidableEq, Repr

/-- Modelled from the spec: the starting-position policy applied when no
checkpoint exists (`TrimHorizon`, `Latest`, `AtSequenceNumber s`). -/
inductive StartingPosition where
  | TrimHorizon
  | Latest
  | AtSequenceNumber (s : String)
deriving DecidableEq, Repr

/-- Shard-iterator kinds of the Stream API (`GetShardIteratorInput.ShardIteratorType`). -/
inductive IteratorType where
  | afterSequenceNumber
  | atSequenceNumber
  | trimHorizon
  | latest
deriving DecidableEq, Repr

/-- A record fetched from a shard (`kinesis.Record`): partition key, payload,
sequence number. -/
structure Record where
  partitionKey : String
  data : String
  sequenceNumber : String
deriving DecidableEq, Repr

/-- The message delivered to the application handler. -/
structure Message where
  partitionKey : String
  data : String
  sequenceNumber : String
  shardID : String
deriving DecidableEq, Repr

/-- Outcome of one handler invocation: success, an error return, or a panic
(`fault`).  Per the spec both failure modes are contained by the runner. -/
inductive HandlerOutcome where
  | ok
  | fail
  | fault
deriving DecidableEq, Repr

/-- The reply of a successful `GetRecords` call: the next iterator token
(absent when the shard is closed) and the fetched batch. -/
structure FetchOutput where
  nextShardIterator : Option String
  records : List Record
deriving DecidableEq, Repr

/-- The runner's configuration, as held in the `runner` struct of the tests:
group, stream, shardID, checkpoint strategy, starting-position policy, and the
application handler. -/
structure RunnerConfig where
  group : String
  stream : String
  shardID : String
  checkpointStrategy : CheckpointStrategy
  startingPosition : StartingPosition
  handler : Message → HandlerOutcome

/-- Modelled from the spec: the runner's mutable per-shard state
(`iteratorToken`, closed flag). -/
structure RunnerState where
  shardIterator : Option String
  closed : Bool
deriving DecidableEq, Repr

/-- One tick's environment: the replies the external collaborators (Checkpoint
Store and Stream API) would give this tick, and the Checkpoint Store's answer
to a `Set`.  `checkpointGet` yields the empty string when no checkpoint exists. -/
structure TickEnv where
  checkpointGet : Except String String
  getShardIterator : Except String String
  getRecords : Except String FetchOutput
  checkpointSet : String → Except String Unit

/-- Observable calls `process` makes during one tick, in order. -/
inductive Event where
  | checkpointGetCall (key : String)
  | getShardIteratorCall (shardID : String) (stream : String)
      (iterType : IteratorType) (startSeq : Option String)
  | getRecordsCall (iterator : String)
  | handlerInvoke (msg : Message)
  | checkpointSetCall (key : String) (seq : String)
  | shutdownCall
deriving DecidableEq, Repr

/-- The outcome of one `process` tick: new runner state, the trace of external
calls, and the error returned by `process` (`none` = nil). -/
structure TickResult where
  state : RunnerState
  events : List Event
  result : Option String
deriving Repr

/-- Modelled from the spec: the checkpoint key, an opaque rendering of the
`(group, stream, shardID)` tuple (the exact format is irrelevant to the
claims; the tests treat it symbolically as `r.checkpointIdentifier()`). -/
def RunnerConfig.checkpointIdentifier (r : RunnerConfig) : String :=
  r.group ++ ":" ++ r.stream ++ ":" ++ r.shardID

/-- The message built from a fetched record for the handler. -/
def mkMessage (r : RunnerConfig) (rec : Record) : Message :=
  { partitionKey := rec.partitionKey
    data := rec.data
    sequenceNumber := rec.sequenceNumber
    shardID := r.shardID }

/-- Modelled from the spec (§4.1 step 4): sequential dispatch of a fetched
batch.  Each record's handler call is guarded; an error return or a panic
stops the batch at that record.  Under `AfterRecord` a checkpoint `Set` is
attempted after each successful record (its failure is logged, not fatal).
Returns the event trace, the sequence number of the last successfully handled
record, and whether the whole batch was handled. -/
def dispatch (r : RunnerConfig) : List Record → List Event × Option String × Bool
  | [] => ([], none, true)
  | rec :: rest =>
    let msg := mkMessage r rec
    match r.handler msg with
    | HandlerOutcome.ok =>
      let setEvts : List Event :=
        if r.checkpointStrategy = CheckpointStrategy.AfterRecord then
          [Event.checkpointSetCall r.checkpointIdentifier rec.sequenceNumber]
        else []
      let res := dispatch r rest
      (Event.handlerInvoke msg :: (setEvts ++ res.1),
       some (res.2.1.getD rec.sequenceNumber), res.2.2)
    | _ => ([Event.handlerInvoke msg], none, false)

/-- Modelled from the spec (§4.1 step 4): the checkpoint write performed once
after the batch, when the strategy is `AfterRecordBatch` and some record of the
batch was successfully handled. -/
def batchCheckpoint (r : RunnerConfig) (last : Option String) : List Event :=
  match r.checkpointStrategy, last with
  | CheckpointStrategy.AfterRecordBatch, some l =>
    [Event.checkpointSetCall r.checkpointIdentifier l]
  | _, _ => []

/-- Modelled from the spec (§4.1 step 1): the shard-iterator request issued
when resolving the starting position.  A non-empty checkpointed sequence asks
for an after-sequence-number iterator at that value; otherwise the
starting-position policy applies. -/
def resolveRequest (r : RunnerConfig) (lastAck : String) : IteratorType × Option String :=
  if lastAck ≠ "" then (IteratorType.afterSequenceNumber, some lastAck)
  else
    match r.startingPosition with
    | StartingPosition.TrimHorizon => (IteratorType.trimHorizon, none)
    | StartingPosition.Latest => (IteratorType.latest, none)
    | StartingPosition.AtSequenceNumber s => (IteratorType.atSequenceNumber, some s)

/-- Modelled from the spec (§4.1 steps 2–5): fetch records with the current
iterator and dispatch them.  On fetch failure the iterator is discarded and
the tick returns nil.  An absent next-iterator token means the shard is
closed: the shutdown callback is invoked and the tick returns nil.  Otherwise
the batch is dispatched; on a fully handled batch, `AfterRecordBatch` writes
one checkpoint at the last record's sequence number and the next iterator is
stored; on a failed record the iterator is kept so the next tick re-fetches
from the same position. -/
def fetchAndDispatch (r : RunnerConfig) (st : RunnerState) (iter : String)
    (acc : List Event) (env : TickEnv) : TickResult :=
  let acc := acc ++ [Event.getRecordsCall iter]
  match env.getRecords with
  | Except.error _ => ⟨{ st with shardIterator := none }, acc, none⟩
  | Except.ok out =>
    match out.nextShardIterator with
    | none => ⟨{ st with closed := true }, acc ++ [Event.shutdownCall], none⟩
    | some next =>
      let res := dispatch r out.records
      if res.2.2 then
        ⟨{ st with shardIterator := some next },
         acc ++ res.1 ++ batchCheckpoint r res.2.1, none⟩
      else
        ⟨st, acc ++ res.1, none⟩

/-- Modelled from the spec (§4.1 "The loop (`process` per tick)"), the runner
implementation being absent from the visible sources: one fetch-and-dispatch
cycle.  When no iterator is held, the starting position is resolved from the
Checkpoint Store (a read failure is logged and the tick returns nil; a
non-empty checkpoint requests an after-sequence-number iterator at that value,
an empty one applies the starting-position policy); then records are fetched
and dispatched.  Every transient failure path returns nil. -/
def process (r : RunnerConfig) (st : RunnerState) (env : TickEnv) : TickResult :=
  match st.shardIterator with
  | some iter => fetchAndDispatch r st iter [] env
  | none =>
    let acc := [Event.checkpointGetCall r.checkpointIdentifier]
    match env.checkpointGet with
    | Except.error _ => ⟨st, acc, none⟩
    | Except.ok lastAck =>
      let req := resolveRequest r lastAck
      let acc := acc ++ [Event.getShardIteratorCall r.shardID r.stream req.1 req.2]
      match env.getShardIterator with
      | Except.error _ => ⟨st, acc, none⟩
      | Except.ok iter =>
        fetchAndDispatch r { st with shardIterator := some iter } iter acc env

/-- The sequence numbers written by `checkpointSetCall` events, in order. -/
def setsOf (evts : List Event) : List String :=
  evts.filterMap fun e =>
    match e with
    | Event.checkpointSetCall _ s => some s
    | _ => none

/-- The messages delivered to the handler, in order. -/
def handlerCallsOf (evts : List Event) : List Message :=
  evts.filterMap fun e =>
    match e with
    | Event.handlerInvoke m => some m
    | _ => none

end GoKinesis

namespace Tail

/-- Go's `int32(n)` conversion on an arbitrary integer: wrap into
`[-2^31, 2^31)`. -/
def toInt32 (n : Int) : Int :=
  (n + 2 ^ 31) % 2 ^ 32 - 2 ^ 31

/-- The flags of the `tail` subcommand relevant to its handler:
`--number` (an `int`, default 0) and `--gzip` (default false). -/
structure TailFlags where
  number : Int
  gzipDecode : Bool

/-- The handler-visible mutable state of the `tail` CLI: the atomic `int32`
counter `iteration`, the lines written to standard output, and whether
`s.Shutdown()` has been invoked. -/
structure TailState where
  iteration : Int
  outputs : List String
  shutdownCalled : Bool
deriving DecidableEq, Repr

/-- One invocation of the closure returned by `handler()` in
`tools/kinesis/tail/main.go`, on a message whose `Data` is `data`.  `inflate`
models `gzip.NewReader` + `ioutil.ReadAll` (used only when `--gzip` is set).
Returns the new state and the handler's returned error (`none` = nil).
If `number != 0 && iteration >= int32(number)`, the supervisor is shut down
and nothing is printed or counted; otherwise the (possibly inflated) payload
plus a newline is written to standard output and the counter is incremented. -/
def handlerStep (flags : TailFlags) (inflate : String → Except String String)
    (st : TailState) (data : String) : TailState × Option String :=
  if flags.number ≠ 0 ∧ toInt32 flags.number ≤ st.iteration then
    ({ st with shutdownCalled := true }, none)
  else
    match (if flags.gzipDecode then inflate data else Except.ok data) with
    | Except.error e => (st, some e)
    | Except.ok msg =>
      ({ st with
          outputs := st.outputs ++ [msg ++ "\n"]
          iteration := toInt32 (st.iteration + 1) }, none)

/-- The `tail` handler folded over a sequence of delivered message payloads,
starting from the program's initial state (`iteration = 0`, nothing printed,
supervisor running). -/
def tailRun (flags : TailFlags) (inflate : String → Except String String)
    (msgs : List String) : TailState :=
  msgs.foldl (fun st data => (handlerStep flags inflate st data).1)
    ⟨0, [], false⟩

/-- Identity inflater, standing for any decoder when `--gzip` is off. -/
def idInflate : String → Except String String := fun s => Except.ok s

end Tail


namespace GoKinesis

/-- A two-record batch used to instantiate theorems on concrete inputs. -/
def sampleRecords : List Record :=
  [{ partitionKey := "pk", data := "a", sequenceNumber := "s1" },
   { partitionKey := "pk", data := "b", sequenceNumber := "s2" }]

/-- A concrete open-shard fetch reply. -/
def sampleOut : FetchOutput := { nextShardIterator := some "it-2", records := sampleRecords }

/-- A concrete closed-shard fetch reply: no next iterator, no records. -/
def closedOut : FetchOutput := { nextShardIterator := none, records := [] }

/-- A concrete runner whose handler always succeeds. -/
def okConfig : RunnerConfig :=
  { group := "some_group", stream := "some_stream", shardID := "shard-0"
    checkpointStrategy := CheckpointStrategy.AfterRecordBatch
    startingPosition := StartingPosition.Latest
    handler := fun _ => HandlerOutcome.ok }

/-- A concrete runner whose handler always returns an error. -/
def failConfig : RunnerConfig := { okConfig with handler := fun _ => HandlerOutcome.fail }

/-- A concrete runner whose handler always panics. -/
def faultConfig : RunnerConfig := { okConfig with handler := fun _ => HandlerOutcome.fault }

/-- A concrete tick environment: checkpoint at `s0`, iterator granted, an open
two-record batch, and a Checkpoint Store whose `Set` always fails. -/
def okEnv : TickEnv :=
  { checkpointGet := Except.ok "s0"
    getShardIterator := Except.ok "it-1"
    getRecords := Except.ok sampleOut
    checkpointSet := fun _ => Except.error "boom" }

/-- A tick environment answering a closed-shard fetch reply. -/
def closedEnv : TickEnv := { okEnv with getRecords := Except.ok closedOut }

/-- A tick environment whose Checkpoint Store `Get` fails. -/
def getFailEnv : TickEnv := { okEnv with checkpointGet := Except.error "boom" }

/-- A runner under the `AfterRecord` strategy whose handler succeeds on the
record `s1` and fails on every other record. -/
def replayConfig : RunnerConfig :=
  { okConfig with
      checkpointStrategy := CheckpointStrategy.AfterRecord
      handler := fun m =>
        if m.sequenceNumber = "s1" then HandlerOutcome.ok else HandlerOutcome.fail }

/-- A tick environment like `okEnv` but whose Checkpoint Store `Set`
succeeds. -/
def replayEnv : TickEnv := { okEnv with checkpointSet := fun _ => Except.ok () }

/-- The trace of two consecutive ticks of `replayConfig` under `replayEnv`:
the second tick re-fetches from the kept iterator after the first tick's
mid-batch handler failure. -/
def replayTrace : List Event :=
  (process replayConfig ⟨none, false⟩ replayEnv).events ++
    (process replayConfig (process replayConfig ⟨none, false⟩ replayEnv).state
      replayEnv).events

end GoKinesis

namespace GoKinesis

@[simp] theorem setsOf_nil : setsOf [] = [] := rfl

@[simp] theorem setsOf_append (l₁ l₂ : List Event) :
    setsOf (l₁ ++ l₂) = setsOf l₁ ++ setsOf l₂ := by
  simp [setsOf]

@[simp] theorem setsOf_cons_get (k : String) (l : List Event) :
    setsOf (Event.checkpointGetCall k :: l) = setsOf l := rfl

@[simp] theorem setsOf_cons_gsi (sh strm : String) (ty : IteratorType)
    (sq : Option String) (l : List Event) :
    setsOf (Event.getShardIteratorCall sh strm ty sq :: l) = setsOf l := rfl

@[simp] theorem setsOf_cons_gr (it : String) (l : List Event) :
    setsOf (Event.getRecordsCall it :: l) = setsOf l := rfl

@[simp] theorem setsOf_cons_handler (m : Message) (l : List Event) :
    setsOf (Event.handlerInvoke m :: l) = setsOf l := rfl

@[simp] theorem setsOf_cons_set (k s : String) (l : List Event) :
    setsOf (Event.checkpointSetCall k s :: l) = s :: setsOf l := rfl

@[simp] theorem setsOf_cons_shutdown (l : List Event) :
    setsOf (Event.shutdownCall :: l) = setsOf l := rfl

@[simp] theorem handlerCallsOf_nil : handlerCallsOf [] = [] := rfl

@[simp] theorem handlerCallsOf_append (l₁ l₂ : List Event) :
    handlerCallsOf (l₁ ++ l₂) = handlerCallsOf l₁ ++ handlerCallsOf l₂ := by
  simp [handlerCallsOf]

@[simp] theorem handlerCallsOf_cons_get (k : String) (l : List Event) :
    handlerCallsOf (Event.checkpointGetCall k :: l) = handlerCallsOf l := rfl

@[simp] theorem handlerCallsOf_cons_gsi (sh strm : String) (ty : IteratorType)
    (sq : Option String) (l : List Event) :
    handlerCallsOf (Event.getShardIteratorCall sh strm ty sq :: l) = handlerCallsOf l := rfl

@[simp] theorem handlerCallsOf_cons_gr (it : String) (l : List Event) :
    handlerCallsOf (Event.getRecordsCall it :: l) = handlerCallsOf l := rfl

@[simp] theorem handlerCallsOf_cons_handler (m : Message) (l : List Event) :
    handlerCallsOf (Event.handlerInvoke m :: l) = m :: handlerCallsOf l := rfl

@[simp] theorem handlerCallsOf_cons_set (k s : String) (l : List Event) :
    handlerCallsOf (Event.checkpointSetCall k s :: l) = handlerCallsOf l := rfl

@[simp] theorem handlerCallsOf_cons_shutdown (l : List Event) :
    handlerCallsOf (Event.shutdownCall :: l) = handlerCallsOf l := rfl

theorem handlerCallsOf_map_invoke (f : Record → Message) (recs : List Record) :
    handlerCallsOf (recs.map fun rec => Event.handlerInvoke (f rec)) = recs.map f := by
  induction recs with
  | nil => rfl
  | cons rec rest ih => simp [ih]

theorem setsOf_map_invoke (f : Record → Message) (recs : List Record) :
    setsOf (recs.map fun rec => Event.handlerInvoke (f rec)) = [] := by
  induction recs with
  | nil => rfl
  | cons rec rest ih => simp [ih]

end GoKinesis

namespace GoKinesis

theorem dispatch_nil (r : RunnerConfig) : dispatch r [] = ([], none, true) := rfl

theorem dispatch_cons_ok (r : RunnerConfig) (rec : Record) (rest : List Record)
    (hh : r.handler (mkMessage r rec) = HandlerOutcome.ok) :
    dispatch r (rec :: rest) =
      (Event.handlerInvoke (mkMessage r rec) ::
        ((if r.checkpointStrategy = CheckpointStrategy.AfterRecord then
            [Event.checkpointSetCall r.checkpointIdentifier rec.sequenceNumber]
          else []) ++ (dispatch r rest).1),
       some ((dispatch r rest).2.1.getD rec.sequenceNumber),
       (dispatch r rest).2.2) := by
  conv_lhs => unfold dispatch
  simp only [hh]

theorem dispatch_cons_notok (r : RunnerConfig) (rec : Record) (rest : List Record)
    (hh : r.handler (mkMessage r rec) ≠ HandlerOutcome.ok) :
    dispatch r (rec :: rest) = ([Event.handlerInvoke (mkMessage r rec)], none, false) := by
  unfold dispatch
  cases hv : r.handler (mkMessage r rec) with
  | ok => exact absurd hv hh
  | fail => simp [hv]
  | fault => simp [hv]

theorem dispatch_sets_sublist (r : RunnerConfig) (recs : List Record) :
    List.Sublist (setsOf (dispatch r recs).1) (recs.map (·.sequenceNumber)) := by
  induction recs with
  | nil => simp [dispatch]
  | cons rec rest ih =>
    cases hv : r.handler (mkMessage r rec) with
    | ok =>
      rw [dispatch_cons_ok r rec rest hv]
      by_cases hs : r.checkpointStrategy = CheckpointStrategy.AfterRecord
      · rw [if_pos hs]
        simp only [List.singleton_append, setsOf_cons_handler, setsOf_cons_set,
          List.map_cons]
        exact List.Sublist.cons₂ _ ih
      · rw [if_neg hs]
        simp only [List.nil_append, setsOf_cons_handler, List.map_cons]
        exact List.Sublist.cons _ ih
    | fail =>
      rw [dispatch_cons_notok r rec rest (by simp [hv])]
      simp
    | fault =>
      rw [dispatch_cons_notok r rec rest (by simp [hv])]
      simp

theorem dispatch_sets_nil (r : RunnerConfig) (recs : List Record)
    (h : r.checkpointStrategy ≠ CheckpointStrategy.AfterRecord) :
    setsOf (dispatch r recs).1 = [] := by
  induction recs with
  | nil => rfl
  | cons rec rest ih =>
    cases hv : r.handler (mkMessage r rec) with
    | ok => rw [dispatch_cons_ok r rec rest hv, if_neg h]; simpa using ih
    | fail => rw [dispatch_cons_notok r rec rest (by simp [hv])]; rfl
    | fault => rw [dispatch_cons_notok r rec rest (by simp [hv])]; rfl

theorem dispatch_last_ok (r : RunnerConfig) (recs : List Record) (l : String)
    (h : (dispatch r recs).2.1 = some l) :
    ∃ rec ∈ recs, rec.sequenceNumber = l ∧
      r.handler (mkMessage r rec) = HandlerOutcome.ok := by
  induction recs with
  | nil => simp [dispatch] at h
  | cons rec rest ih =>
    cases hv : r.handler (mkMessage r rec) with
    | ok =>
      rw [dispatch_cons_ok r rec rest hv] at h
      simp only [Option.some.injEq] at h
      cases hrest : (dispatch r rest).2.1 with
      | none =>
        rw [hrest] at h
        exact ⟨rec, List.mem_cons_self _ _, by simpa using h, hv⟩
      | some l' =>
        rw [hrest] at h
        simp only [Option.getD_some] at h
        obtain ⟨rec', hm, hq, hk⟩ := ih (by rw [hrest, h])
        exact ⟨rec', List.mem_cons_of_mem _ hm, hq, hk⟩
    | fail =>
      rw [dispatch_cons_notok r rec rest (by simp [hv])] at h
      simp at h
    | fault =>
      rw [dispatch_cons_notok r rec rest (by simp [hv])] at h
      simp at h

theorem dispatch_sets_ok (r : RunnerConfig) (recs : List Record) (s : String)
    (h : s ∈ setsOf (dispatch r recs).1) :
    ∃ rec ∈ recs, rec.sequenceNumber = s ∧
      r.handler (mkMessage r rec) = HandlerOutcome.ok := by
  induction recs with
  | nil => simp [dispatch] at h
  | cons rec rest ih =>
    cases hv : r.handler (mkMessage r rec) with
    | ok =>
      rw [dispatch_cons_ok r rec rest hv] at h
      by_cases hs : r.checkpointStrategy = CheckpointStrategy.AfterRecord
      · rw [if_pos hs] at h
        simp only [List.singleton_append, setsOf_cons_handler, setsOf_cons_set,
          List.mem_cons] at h
        rcases h with heq | hmem
        · exact ⟨rec, List.mem_cons_self _ _, heq.symm, hv⟩
        · obtain ⟨rec', hm, hq, hk⟩ := ih hmem
          exact ⟨rec', List.mem_cons_of_mem _ hm, hq, hk⟩
      · rw [if_neg hs] at h
        simp only [List.nil_append, setsOf_cons_handler] at h
        obtain ⟨rec', hm, hq, hk⟩ := ih h
        exact ⟨rec', List.mem_cons_of_mem _ hm, hq, hk⟩
    | fail =>
      rw [dispatch_cons_notok r rec rest (by simp [hv])] at h
      simp at h
    | fault =>
      rw [dispatch_cons_notok r rec rest (by simp [hv])] at h
      simp at h

theorem dispatch_all_ok (r : RunnerConfig) (recs : List Record)
    (hs : r.checkpointStrategy = CheckpointStrategy.AfterRecordBatch)
    (h : ∀ rec ∈ recs, r.handler (mkMessage r rec) = HandlerOutcome.ok) :
    dispatch r recs =
      ((recs.map fun rec => Event.handlerInvoke (mkMessage r rec)),
       (recs.map (·.sequenceNumber)).getLast?, true) := by
  induction recs with
  | nil => rfl
  | cons rec rest ih =>
    rw [dispatch_cons_ok r rec rest (h rec (List.mem_cons_self _ _)),
      ih fun x hx => h x (List.mem_cons_of_mem _ hx)]
    simp [hs, List.getLast?_cons]

end GoKinesis

namespace GoKinesis

theorem batchCheckpoint_none (r : RunnerConfig) : batchCheckpoint r none = [] := by
  unfold batchCheckpoint
  cases r.checkpointStrategy <;> rfl

theorem batchCheckpoint_of_ne (r : RunnerConfig) (l : Option String)
    (h : r.checkpointStrategy ≠ CheckpointStrategy.AfterRecordBatch) :
    batchCheckpoint r l = [] := by
  unfold batchCheckpoint
  cases hs : r.checkpointStrategy <;> cases l <;> first | rfl | exact absurd hs h

theorem batchCheckpoint_some (r : RunnerConfig) (l : String)
    (h : r.checkpointStrategy = CheckpointStrategy.AfterRecordBatch) :
    batchCheckpoint r (some l) = [Event.checkpointSetCall r.checkpointIdentifier l] := by
  unfold batchCheckpoint
  rw [h]

theorem resolveRequest_of_ne (r : RunnerConfig) (a : String) (h : a ≠ "") :
    resolveRequest r a = (IteratorType.afterSequenceNumber, some a) := by
  simp [resolveRequest, h]

theorem fetchAndDispatch_fetch_error (r : RunnerConfig) (st : RunnerState)
    (iter : String) (acc : List Event) (env : TickEnv) (e : String)
    (h : env.getRecords = Except.error e) :
    fetchAndDispatch r st iter acc env =
      ⟨{ st with shardIterator := none }, acc ++ [Event.getRecordsCall iter], none⟩ := by
  unfold fetchAndDispatch
  simp only [h]

theorem fetchAndDispatch_closed (r : RunnerConfig) (st : RunnerState)
    (iter : String) (acc : List Event) (env : TickEnv) (out : FetchOutput)
    (h : env.getRecords = Except.ok out) (hnext : out.nextShardIterator = none) :
    fetchAndDispatch r st iter acc env =
      ⟨{ st with closed := true },
       (acc ++ [Event.getRecordsCall iter]) ++ [Event.shutdownCall], none⟩ := by
  unfold fetchAndDispatch
  simp only [h, hnext]

theorem fetchAndDispatch_open_done (r : RunnerConfig) (st : RunnerState)
    (iter : String) (acc : List Event) (env : TickEnv) (out : FetchOutput)
    (next : String)
    (h : env.getRecords = Except.ok out) (hnext : out.nextShardIterator = some next)
    (hdone : (dispatch r out.records).2.2 = true) :
    fetchAndDispatch r st iter acc env =
      ⟨{ st with shardIterator := some next },
       (acc ++ [Event.getRecordsCall iter]) ++ (dispatch r out.records).1 ++
         batchCheckpoint r (dispatch r out.records).2.1, none⟩ := by
  unfold fetchAndDispatch
  simp only [h, hnext, hdone, if_true]

theorem fetchAndDispatch_open_notdone (r : RunnerConfig) (st : RunnerState)
    (iter : String) (acc : List Event) (env : TickEnv) (out : FetchOutput)
    (next : String)
    (h : env.getRecords = Except.ok out) (hnext : out.nextShardIterator = some next)
    (hdone : (dispatch r out.records).2.2 = false) :
    fetchAndDispatch r st iter acc env =
      ⟨st, (acc ++ [Event.getRecordsCall iter]) ++ (dispatch r out.records).1, none⟩ := by
  unfold fetchAndDispatch
  simp only [h, hnext, hdone, Bool.false_eq_true, if_false]

theorem process_some_iter (r : RunnerConfig) (st : RunnerState) (env : TickEnv)
    (iter : String) (hiter : st.shardIterator = some iter) :
    process r st env = fetchAndDispatch r st iter [] env := by
  unfold process
  simp only [hiter]

theorem process_get_error (r : RunnerConfig) (st : RunnerState) (env : TickEnv)
    (e : String) (hiter : st.shardIterator = none)
    (hget : env.checkpointGet = Except.error e) :
    process r st env = ⟨st, [Event.checkpointGetCall r.checkpointIdentifier], none⟩ := by
  unfold process
  simp only [hiter, hget]

theorem process_gsi_error (r : RunnerConfig) (st : RunnerState) (env : TickEnv)
    (a e : String) (hiter : st.shardIterator = none)
    (hget : env.checkpointGet = Except.ok a)
    (hgsi : env.getShardIterator = Except.error e) :
    process r st env =
      ⟨st, [Event.checkpointGetCall r.checkpointIdentifier,
            Event.getShardIteratorCall r.shardID r.stream
              (resolveRequest r a).1 (resolveRequest r a).2], none⟩ := by
  unfold process
  simp only [hiter, hget, hgsi, List.singleton_append]

theorem process_gsi_ok (r : RunnerConfig) (st : RunnerState) (env : TickEnv)
    (a iter : String) (hiter : st.shardIterator = none)
    (hget : env.checkpointGet = Except.ok a)
    (hgsi : env.getShardIterator = Except.ok iter) :
    process r st env =
      fetchAndDispatch r { st with shardIterator := some iter } iter
        [Event.checkpointGetCall r.checkpointIdentifier,
         Event.getShardIteratorCall r.shardID r.stream
           (resolveRequest r a).1 (resolveRequest r a).2] env := by
  unfold process
  simp only [hiter, hget, hgsi, List.singleton_append]

end GoKinesis

namespace GoKinesis

theorem fetchAndDispatch_result (r : RunnerConfig) (st : RunnerState)
    (iter : String) (acc : List Event) (env : TickEnv) :
    (fetchAndDispatch r st iter acc env).result = none := by
  cases hr : env.getRecords with
  | error e => rw [fetchAndDispatch_fetch_error r st iter acc env e hr]
  | ok out =>
    cases hnext : out.nextShardIterator with
    | none => rw [fetchAndDispatch_closed r st iter acc env out hr hnext]
    | some next =>
      cases hdone : (dispatch r out.records).2.2 with
      | true => rw [fetchAndDispatch_open_done r st iter acc env out next hr hnext hdone]
      | false => rw [fetchAndDispatch_open_notdone r st iter acc env out next hr hnext hdone]

theorem process_result_eq_none (r : RunnerConfig) (st : RunnerState) (env : TickEnv) :
    (process r st env).result = none := by
  cases hiter : st.shardIterator with
  | some iter =>
    rw [process_some_iter r st env iter hiter]
    exact fetchAndDispatch_result _ _ _ _ _
  | none =>
    cases hget : env.checkpointGet with
    | error e => rw [process_get_error r st env e hiter hget]
    | ok a =>
      cases hgsi : env.getShardIterator with
      | error e => rw [process_gsi_error r st env a e hiter hget hgsi]
      | ok iter =>
        rw [process_gsi_ok r st env a iter hiter hget hgsi]
        exact fetchAndDispatch_result _ _ _ _ _

theorem fetchAndDispatch_events_prefix (r : RunnerConfig) (st : RunnerState)
    (iter : String) (acc : List Event) (env : TickEnv) :
    (fetchAndDispatch r st iter acc env).events =
      acc ++ (fetchAndDispatch r st iter [] env).events := by
  cases hr : env.getRecords with
  | error e =>
    rw [fetchAndDispatch_fetch_error r st iter acc env e hr,
      fetchAndDispatch_fetch_error r st iter [] env e hr]
    simp
  | ok out =>
    cases hnext : out.nextShardIterator with
    | none =>
      rw [fetchAndDispatch_closed r st iter acc env out hr hnext,
        fetchAndDispatch_closed r st iter [] env out hr hnext]
      simp
    | some next =>
      cases hdone : (dispatch r out.records).2.2 with
      | true =>
        rw [fetchAndDispatch_open_done r st iter acc env out next hr hnext hdone,
          fetchAndDispatch_open_done r st iter [] env out next hr hnext hdone]
        simp
      | false =>
        rw [fetchAndDispatch_open_notdone r st iter acc env out next hr hnext hdone,
          fetchAndDispatch_open_notdone r st iter [] env out next hr hnext hdone]
        simp

theorem fetchAndDispatch_sets_ok (r : RunnerConfig) (st : RunnerState)
    (iter : String) (acc : List Event) (env : TickEnv) (out : FetchOutput) (s : String)
    (hacc : setsOf acc = [])
    (hrec : env.getRecords = Except.ok out)
    (h : s ∈ setsOf (fetchAndDispatch r st iter acc env).events) :
    ∃ rec ∈ out.records, rec.sequenceNumber = s ∧
      r.handler (mkMessage r rec) = HandlerOutcome.ok := by
  cases hnext : out.nextShardIterator with
  | none =>
    rw [fetchAndDispatch_closed r st iter acc env out hrec hnext] at h
    simp [hacc] at h
  | some next =>
    cases hdone : (dispatch r out.records).2.2 with
    | false =>
      rw [fetchAndDispatch_open_notdone r st iter acc env out next hrec hnext hdone] at h
      simp only [setsOf_append, hacc, setsOf_cons_gr, setsOf_nil, List.nil_append,
        List.append_nil] at h
      exact dispatch_sets_ok r out.records s h
    | true =>
      rw [fetchAndDispatch_open_done r st iter acc env out next hrec hnext hdone] at h
      simp only [setsOf_append, hacc, setsOf_cons_gr, setsOf_nil, List.nil_append] at h
      rcases List.mem_append.mp h with hd | hb
      · exact dispatch_sets_ok r out.records s hd
      · cases hl : (dispatch r out.records).2.1 with
        | none => rw [hl, batchCheckpoint_none] at hb; simp at hb
        | some l =>
          rw [hl] at hb
          by_cases hs : r.checkpointStrategy = CheckpointStrategy.AfterRecordBatch
          · rw [batchCheckpoint_some r l hs] at hb
            simp only [setsOf_cons_set, setsOf_nil, List.mem_singleton] at hb
            subst hb
            exact dispatch_last_ok r out.records s hl
          · rw [batchCheckpoint_of_ne r _ hs] at hb
            simp at hb

theorem fetchAndDispatch_sets_sublist (r : RunnerConfig) (st : RunnerState)
    (iter : String) (acc : List Event) (env : TickEnv) (out : FetchOutput)
    (hacc : setsOf acc = [])
    (hrec : env.getRecords = Except.ok out) :
    List.Sublist (setsOf (fetchAndDispatch r st iter acc env).events)
      (out.records.map (·.sequenceNumber)) := by
  cases hnext : out.nextShardIterator with
  | none =>
    rw [fetchAndDispatch_closed r st iter acc env out hrec hnext]
    simp [hacc]
  | some next =>
    cases hdone : (dispatch r out.records).2.2 with
    | false =>
      rw [fetchAndDispatch_open_notdone r st iter acc env out next hrec hnext hdone]
      simpa [hacc] using dispatch_sets_sublist r out.records
    | true =>
      rw [fetchAndDispatch_open_done r st iter acc env out next hrec hnext hdone]
      simp only [setsOf_append, hacc, setsOf_cons_gr, setsOf_nil, List.nil_append]
      by_cases hs : r.checkpointStrategy = CheckpointStrategy.AfterRecordBatch
      · rw [dispatch_sets_nil r out.records (by rw [hs]; intro hc; cases hc)]
        cases hl : (dispatch r out.records).2.1 with
        | none => simp [batchCheckpoint_none]
        | some l =>
          rw [batchCheckpoint_some r l hs]
          simp only [List.nil_append, setsOf_cons_set, setsOf_nil]
          obtain ⟨rec, hm, hseq, _⟩ := dispatch_last_ok r out.records l hl
          exact List.singleton_sublist.mpr (hseq ▸ List.mem_map_of_mem _ hm)
      · rw [batchCheckpoint_of_ne r _ hs]
        simpa using dispatch_sets_sublist r out.records

end GoKinesis

namespace GoKinesis

theorem process_batch_success_events (r : RunnerConfig) (st : RunnerState)
    (env : TickEnv) (it : String) (out : FetchOutput) (nxt : String)
    (hstrat : r.checkpointStrategy = CheckpointStrategy.AfterRecordBatch)
    (hiter : st.shardIterator = some it)
    (hrec : env.getRecords = Except.ok out)
    (hnext : out.nextShardIterator = some nxt)
    (hok : ∀ rec ∈ out.records, r.handler (mkMessage r rec) = HandlerOutcome.ok)
    (hne : out.records ≠ []) :
    (process r st env).events =
      Event.getRecordsCall it ::
        ((out.records.map fun rec => Event.handlerInvoke (mkMessage r rec)) ++
         [Event.checkpointSetCall r.checkpointIdentifier
            (out.records.getLast hne).sequenceNumber]) := by
  have hd := dispatch_all_ok r out.records hstrat hok
  have hdone : (dispatch r out.records).2.2 = true := by rw [hd]
  rw [process_some_iter r st env it hiter,
    fetchAndDispatch_open_done r st it [] env out nxt hrec hnext hdone, hd]
  have hmapne : out.records.map (·.sequenceNumber) ≠ [] := by simpa using hne
  have hlast : (out.records.map (·.sequenceNumber)).getLast? =
      some ((out.records.getLast hne).sequenceNumber) := by
    rw [List.getLast?_eq_getLast _ hmapne, List.getLast_map _ _ hmapne]
  simp only [hlast, batchCheckpoint_some r _ hstrat]
  simp

/-- C1: every handler failure (error return or panic) is contained by
`runner.process`: the tick returns nil whatever the handler does, and a
checkpoint `Set` is only ever written with the sequence number of a record of
the fetched batch whose handler invocation succeeded — a failing or panicking
record is never acknowledged. -/
theorem process_contains_handler_failure (r : RunnerConfig) (st : RunnerState)
    (env : TickEnv) (out : FetchOutput)
    (hrec : env.getRecords = Except.ok out) :
    (process r st env).result = none ∧
    ∀ s ∈ setsOf (process r st env).events,
      ∃ rec ∈ out.records, rec.sequenceNumber = s ∧
        r.handler (mkMessage r rec) = HandlerOutcome.ok := by
  refine ⟨process_result_eq_none r st env, ?_⟩
  intro s hs
  cases hiter : st.shardIterator with
  | some iter =>
    rw [process_some_iter r st env iter hiter] at hs
    exact fetchAndDispatch_sets_ok r st iter [] env out s rfl hrec hs
  | none =>
    cases hget : env.checkpointGet with
    | error e =>
      rw [process_get_error r st env e hiter hget] at hs
      simp at hs
    | ok a =>
      cases hgsi : env.getShardIterator with
      | error e =>
        rw [process_gsi_error r st env a e hiter hget hgsi] at hs
        simp at hs
      | ok iter =>
        rw [process_gsi_ok r st env a iter hiter hget hgsi] at hs
        exact fetchAndDispatch_sets_ok r _ iter _ env out s (by simp) hrec hs

/-- C2: under the `AfterRecordBatch` strategy, when the handler fails on the
first record of the batch (so no record succeeded), `runner.process` performs
no checkpoint `Set` at all, stops the batch at that record, keeps the runner
state unchanged (so the next tick re-fetches from the same position), and
returns nil. -/
theorem process_afterRecordBatch_no_set_on_first_failure (r : RunnerConfig)
    (st : RunnerState) (env : TickEnv) (it : String) (out : FetchOutput)
    (rec0 : Record) (rest : List Record) (nxt : String)
    (hstrat : r.checkpointStrategy = CheckpointStrategy.AfterRecordBatch)
    (hiter : st.shardIterator = some it)
    (hrec : env.getRecords = Except.ok out)
    (hrecs : out.records = rec0 :: rest)
    (hnext : out.nextShardIterator = some nxt)
    (hfail : r.handler (mkMessage r rec0) ≠ HandlerOutcome.ok) :
    (process r st env).events =
      [Event.getRecordsCall it, Event.handlerInvoke (mkMessage r rec0)] ∧
    setsOf (process r st env).events = [] ∧
    (process r st env).state = st ∧
    (process r st env).result = none := by
  have hd : dispatch r out.records =
      ([Event.handlerInvoke (mkMessage r rec0)], none, false) := by
    rw [hrecs]
    exact dispatch_cons_notok r rec0 rest hfail
  have hdone : (dispatch r out.records).2.2 = false := by rw [hd]
  rw [process_some_iter r st env it hiter,
    fetchAndDispatch_open_notdone r st it [] env out nxt hrec hnext hdone, hd]
  exact ⟨by simp, by simp, rfl, rfl⟩

/-- C3 (amended to one tick): checkpoint sequence numbers strictly increase
within a tick.  If the tick reads checkpoint `a` and the fetched batch's
sequence numbers form a strictly increasing chain above `a` (the stream
guarantee), then `a` followed by every sequence number written by `Set`
during that tick is strictly increasing: each write exceeds the initially
read value and every `Set` written earlier in the tick.  Across ticks the
unrestricted claim fails: after a mid-batch handler failure the kept iterator
re-fetches — and under `AfterRecord` re-acknowledges — an already checkpointed
record (see the lifetime counterexample). -/
theorem process_checkpoint_sets_strictly_increase (r : RunnerConfig)
    (st : RunnerState) (env : TickEnv) (a : String) (out : FetchOutput)
    (hiter : st.shardIterator = none)
    (hget : env.checkpointGet = Except.ok a)
    (hrec : env.getRecords = Except.ok out)
    (hchain : List.Chain (· < ·) a (out.records.map (·.sequenceNumber))) :
    List.Pairwise (· < ·) (a :: setsOf (process r st env).events) := by
  have hpw : List.Pairwise (· < ·) (a :: out.records.map (·.sequenceNumber)) :=
    List.chain_iff_pairwise.mp hchain
  have hsub : List.Sublist (setsOf (process r st env).events)
      (out.records.map (·.sequenceNumber)) := by
    cases hgsi : env.getShardIterator with
    | error e =>
      rw [process_gsi_error r st env a e hiter hget hgsi]
      simp
    | ok iter =>
      rw [process_gsi_ok r st env a iter hiter hget hgsi]
      exact fetchAndDispatch_sets_sublist r _ iter _ env out (by simp) hrec
  exact hpw.sublist (List.Sublist.cons₂ _ hsub)

/-- C4: when the fetch response carries no next-iterator token, the shard is
closed: `runner.process` invokes the shutdown callback, marks the runner
closed and returns nil; on a closed shard returning no records the shutdown
fires on the first tick and the handler is never invoked. -/
theorem process_closed_shard_shutdown (r : RunnerConfig) (st : RunnerState)
    (env : TickEnv) (a it : String) (out : FetchOutput)
    (hiter : st.shardIterator = none)
    (hget : env.checkpointGet = Except.ok a)
    (hgsi : env.getShardIterator = Except.ok it)
    (hrec : env.getRecords = Except.ok out)
    (hnext : out.nextShardIterator = none)
    (hnorec : out.records = []) :
    (process r st env).result = none ∧
    Event.shutdownCall ∈ (process r st env).events ∧
    (process r st env).state.closed = true ∧
    ∀ m, Event.handlerInvoke m ∉ (process r st env).events := by
  rw [process_gsi_ok r st env a it hiter hget hgsi,
    fetchAndDispatch_closed r _ it _ env out hrec hnext]
  refine ⟨rfl, by simp, rfl, fun m => ?_⟩
  simp

/-- C5: when the Checkpoint Store `Get` fails, `runner.process` returns nil,
makes no Stream API call during the tick (its only external call is the failed
`Get`), and leaves the runner state unchanged, so the tick is simply retried
later. -/
theorem process_checkpoint_get_failure (r : RunnerConfig) (st : RunnerState)
    (env : TickEnv) (e : String)
    (hiter : st.shardIterator = none)
    (hget : env.checkpointGet = Except.error e) :
    (process r st env).result = none ∧
    (process r st env).events = [Event.checkpointGetCall r.checkpointIdentifier] ∧
    (process r st env).state = st := by
  rw [process_get_error r st env e hiter hget]
  exact ⟨rfl, rfl, rfl⟩

/-- C6: whenever the Checkpoint Store `Get` returns a non-empty sequence
number, `runner.process` requests the shard iterator with iterator type
after-sequence-number, starting at the checkpointed value, for the runner's
shard and stream. -/
theorem process_resumes_after_checkpoint (r : RunnerConfig) (st : RunnerState)
    (env : TickEnv) (s : String)
    (hiter : st.shardIterator = none)
    (hget : env.checkpointGet = Except.ok s)
    (hne : s ≠ "") :
    (process r st env).events.take 2 =
      [Event.checkpointGetCall r.checkpointIdentifier,
       Event.getShardIteratorCall r.shardID r.stream
         IteratorType.afterSequenceNumber (some s)] := by
  cases hgsi : env.getShardIterator with
  | error e =>
    rw [process_gsi_error r st env s e hiter hget hgsi, resolveRequest_of_ne r s hne]
    rfl
  | ok iter =>
    rw [process_gsi_ok r st env s iter hiter hget hgsi, resolveRequest_of_ne r s hne,
      fetchAndDispatch_events_prefix]
    exact List.take_left' rfl

/-- C7: under the `AfterRecordBatch` strategy, when every record of the
fetched batch is handled successfully, `runner.process` invokes the handler
once per record in batch order and calls the Checkpoint Store `Set` exactly
once, with the sequence number of the last record of the batch. -/
theorem process_afterRecordBatch_success (r : RunnerConfig) (st : RunnerState)
    (env : TickEnv) (it : String) (out : FetchOutput) (nxt : String)
    (hstrat : r.checkpointStrategy = CheckpointStrategy.AfterRecordBatch)
    (hiter : st.shardIterator = some it)
    (hrec : env.getRecords = Except.ok out)
    (hnext : out.nextShardIterator = some nxt)
    (hok : ∀ rec ∈ out.records, r.handler (mkMessage r rec) = HandlerOutcome.ok)
    (hne : out.records ≠ []) :
    handlerCallsOf (process r st env).events = out.records.map (mkMessage r) ∧
    setsOf (process r st env).events =
      [(out.records.getLast hne).sequenceNumber] := by
  rw [process_batch_success_events r st env it out nxt hstrat hiter hrec hnext hok hne]
  constructor
  · simp [handlerCallsOf_map_invoke]
  · simp [setsOf_map_invoke]

/-- C8: a checkpoint write failure is not fatal: even when every `Set` of the
Checkpoint Store fails, after a successfully handled batch `runner.process`
still attempts the `Set` and returns nil, so the loop continues. -/
theorem process_checkpoint_set_failure_not_fatal (r : RunnerConfig)
    (st : RunnerState) (env : TickEnv) (it : String) (out : FetchOutput)
    (nxt err : String)
    (hstrat : r.checkpointStrategy = CheckpointStrategy.AfterRecordBatch)
    (hiter : st.shardIterator = some it)
    (hrec : env.getRecords = Except.ok out)
    (hnext : out.nextShardIterator = some nxt)
    (hok : ∀ rec ∈ out.records, r.handler (mkMessage r rec) = HandlerOutcome.ok)
    (hne : out.records ≠ [])
    (hsetfail : ∀ q, env.checkpointSet q = Except.error err) :
    Event.checkpointSetCall r.checkpointIdentifier
      (out.records.getLast hne).sequenceNumber ∈ (process r st env).events ∧
    (process r st env).result = none := by
  refine ⟨?_, process_result_eq_none r st env⟩
  rw [process_batch_success_events r st env it out nxt hstrat hiter hrec hnext hok hne]
  simp

end GoKinesis

namespace GoKinesis

/-- Witness for C1: a panicking handler on the sample batch; the tick returns
nil and only successfully handled records may be acknowledged. -/
theorem process_contains_handler_failure_witness :
    (process faultConfig ⟨some "it-1", false⟩ okEnv).result = none ∧
    ∀ s ∈ setsOf (process faultConfig ⟨some "it-1", false⟩ okEnv).events,
      ∃ rec ∈ sampleOut.records, rec.sequenceNumber = s ∧
        faultConfig.handler (mkMessage faultConfig rec) = HandlerOutcome.ok :=
  process_contains_handler_failure faultConfig ⟨some "it-1", false⟩ okEnv sampleOut rfl

/-- Witness for C2: the handler fails on the first record of the sample
batch; no `Set` occurs, the batch stops there, the state is kept, nil is
returned. -/
theorem process_afterRecordBatch_no_set_on_first_failure_witness :
    (process failConfig ⟨some "it-1", false⟩ okEnv).events =
      [Event.getRecordsCall "it-1",
       Event.handlerInvoke (mkMessage failConfig ⟨"pk", "a", "s1"⟩)] ∧
    setsOf (process failConfig ⟨some "it-1", false⟩ okEnv).events = [] ∧
    (process failConfig ⟨some "it-1", false⟩ okEnv).state = ⟨some "it-1", false⟩ ∧
    (process failConfig ⟨some "it-1", false⟩ okEnv).result = none :=
  process_afterRecordBatch_no_set_on_first_failure failConfig ⟨some "it-1", false⟩
    okEnv "it-1" sampleOut ⟨"pk", "a", "s1"⟩ [⟨"pk", "b", "s2"⟩] "it-2"
    rfl rfl rfl rfl rfl (by decide)

/-- Witness for C3: on the sample tick reading checkpoint `s0` and fetching
the increasing batch `s1, s2`, the written checkpoints strictly increase. -/
theorem process_checkpoint_sets_strictly_increase_witness :
    List.Pairwise (· < ·) ("s0" :: setsOf (process okConfig ⟨none, false⟩ okEnv).events) :=
  process_checkpoint_sets_strictly_increase okConfig ⟨none, false⟩ okEnv "s0" sampleOut
    rfl rfl rfl
    (by
      show List.Chain (· < ·) "s0" ["s1", "s2"]
      refine List.Chain.cons ?_ (List.Chain.cons ?_ List.Chain.nil) <;>
        (rw [String.lt_iff_toList_lt]; decide))

/-- Witness for C4: a first-tick fetch with no next iterator and no records
invokes shutdown, closes the runner, never invokes the handler, returns nil. -/
theorem process_closed_shard_shutdown_witness :
    (process okConfig ⟨none, false⟩ closedEnv).result = none ∧
    Event.shutdownCall ∈ (process okConfig ⟨none, false⟩ closedEnv).events ∧
    (process okConfig ⟨none, false⟩ closedEnv).state.closed = true ∧
    ∀ m, Event.handlerInvoke m ∉ (process okConfig ⟨none, false⟩ closedEnv).events :=
  process_closed_shard_shutdown okConfig ⟨none, false⟩ closedEnv "s0" "it-1" closedOut
    rfl rfl rfl rfl rfl rfl

/-- Witness for C5: a failing checkpoint `Get` yields a nil result, a trace
holding only the `Get`, and an unchanged state. -/
theorem process_checkpoint_get_failure_witness :
    (process okConfig ⟨none, false⟩ getFailEnv).result = none ∧
    (process okConfig ⟨none, false⟩ getFailEnv).events =
      [Event.checkpointGetCall okConfig.checkpointIdentifier] ∧
    (process okConfig ⟨none, false⟩ getFailEnv).state = ⟨none, false⟩ :=
  process_checkpoint_get_failure okConfig ⟨none, false⟩ getFailEnv "boom" rfl rfl

/-- Witness for C6: with checkpoint `s0` stored, the tick's second external
call asks for an after-sequence-number iterator at `s0`. -/
theorem process_resumes_after_checkpoint_witness :
    (process okConfig ⟨none, false⟩ okEnv).events.take 2 =
      [Event.checkpointGetCall okConfig.checkpointIdentifier,
       Event.getShardIteratorCall okConfig.shardID okConfig.stream
         IteratorType.afterSequenceNumber (some "s0")] :=
  process_resumes_after_checkpoint okConfig ⟨none, false⟩ okEnv "s0" rfl rfl (by decide)

/-- Witness for C7: the all-success sample batch is delivered in order and a
single `Set` writes the last sequence number `s2`. -/
theorem process_afterRecordBatch_success_witness :
    handlerCallsOf (process okConfig ⟨some "it-1", false⟩ okEnv).events =
      sampleOut.records.map (mkMessage okConfig) ∧
    setsOf (process okConfig ⟨some "it-1", false⟩ okEnv).events = ["s2"] :=
  process_afterRecordBatch_success okConfig ⟨some "it-1", false⟩ okEnv "it-1" sampleOut
    "it-2" rfl rfl rfl rfl (by decide) (by decide)

/-- Witness for C8: with every `Set` failing, the successful sample batch
still attempts the `Set` of `s2` and the tick returns nil. -/
theorem process_checkpoint_set_failure_not_fatal_witness :
    Event.checkpointSetCall okConfig.checkpointIdentifier "s2" ∈
      (process okConfig ⟨some "it-1", false⟩ okEnv).events ∧
    (process okConfig ⟨some "it-1", false⟩ okEnv).result = none :=
  process_checkpoint_set_failure_not_fatal okConfig ⟨some "it-1", false⟩ okEnv "it-1"
    sampleOut "it-2" "boom" rfl rfl rfl rfl (by decide) (by decide) (fun q => rfl)

end GoKinesis

namespace Tail

theorem toInt32_coe (n : Nat) (h : n < 2 ^ 31) : toInt32 (n : Int) = (n : Int) := by
  unfold toInt32
  have h1 : (0 : Int) ≤ (n : Int) + 2 ^ 31 := by positivity
  have h2 : (n : Int) + 2 ^ 31 < 2 ^ 32 := by
    have hn : (n : Int) < 2 ^ 31 := by exact_mod_cast h
    omega
  rw [Int.emod_eq_of_lt h1 h2]
  ring

theorem tail_fold_spec (n : Nat) (hn : n ≠ 0) (h31 : n < 2 ^ 31)
    (inflate : String → Except String String) (msgs : List String) :
    ∀ (out0 : List String) (i : Nat) (b : Bool), i ≤ n →
      msgs.foldl (fun st data => (handlerStep ⟨(n : Int), false⟩ inflate st data).1)
        ⟨(i : Int), out0, b⟩ =
      ⟨((min (i + msgs.length) n : Nat) : Int),
       out0 ++ (msgs.take (n - i)).map (· ++ "\n"),
       b || decide (n < i + msgs.length)⟩ := by
  induction msgs with
  | nil =>
    intro out0 i b hi
    simp only [List.foldl_nil, List.take_nil, List.map_nil, List.append_nil,
      List.length_nil, Nat.add_zero, TailState.mk.injEq]
    refine ⟨by rw [Nat.min_eq_left hi], trivial, by simp [Nat.not_lt.mpr hi]⟩
  | cons mhd mtl ih =>
    intro out0 i b hi
    rw [List.foldl_cons]
    by_cases hin : i = n
    · subst hin
      have hcond : ((i : Int) ≠ 0 ∧ toInt32 (i : Int) ≤ (i : Int)) := by
        rw [toInt32_coe i h31]
        exact ⟨by exact_mod_cast hn, le_refl _⟩
      have hstep : (handlerStep ⟨(i : Int), false⟩ inflate ⟨(i : Int), out0, b⟩ mhd).1 =
          ⟨(i : Int), out0, true⟩ := by
        unfold handlerStep
        rw [if_pos hcond]
      rw [hstep, ih out0 i true hi]
      simp only [TailState.mk.injEq, List.length_cons, Nat.sub_self, List.take_zero,
        List.map_nil, List.append_nil, Bool.true_or]
      refine ⟨by congr 1; omega, trivial, ?_⟩
      have hgrow : i < i + (mtl.length + 1) := by omega
      simp [hgrow]
    · have hlt : i < n := Nat.lt_of_le_of_ne hi hin
      have hcond : ¬((n : Int) ≠ 0 ∧ toInt32 (n : Int) ≤ (i : Int)) := by
        rw [toInt32_coe n h31]
        rintro ⟨-, hle⟩
        have hni : n ≤ i := by exact_mod_cast hle
        omega
      have hcast : ((i : Int) + 1) = ((i + 1 : Nat) : Int) := by push_cast; ring
      have hstep : (handlerStep ⟨(n : Int), false⟩ inflate ⟨(i : Int), out0, b⟩ mhd).1 =
          ⟨((i + 1 : Nat) : Int), out0 ++ [mhd ++ "\n"], b⟩ := by
        unfold handlerStep
        rw [if_neg hcond]
        show (⟨toInt32 ((i : Int) + 1), out0 ++ [mhd ++ "\n"], b⟩ : TailState) = _
        rw [hcast, toInt32_coe (i + 1) (by omega)]
      rw [hstep, ih (out0 ++ [mhd ++ "\n"]) (i + 1) b (by omega)]
      have htake : (mhd :: mtl).take (n - i) = mhd :: mtl.take (n - (i + 1)) := by
        have hsucc : n - i = (n - (i + 1)) + 1 := by omega
        rw [hsucc, List.take_succ_cons]
      simp only [TailState.mk.injEq, htake, List.map_cons, List.length_cons]
      refine ⟨by congr 1; omega, by simp, ?_⟩
      congr 1
      simp only [decide_eq_decide]
      omega

theorem tail_zero_fold (inflate : String → Except String String)
    (msgs : List String) :
    ∀ st : TailState,
      (msgs.foldl (fun st data => (handlerStep ⟨0, false⟩ inflate st data).1) st).outputs =
        st.outputs ++ msgs.map (· ++ "\n") ∧
      (msgs.foldl (fun st data => (handlerStep ⟨0, false⟩ inflate st data).1)
          st).shutdownCalled = st.shutdownCalled := by
  induction msgs with
  | nil => intro st; simp
  | cons mhd mtl ih =>
    intro st
    rw [List.foldl_cons]
    have hstep : (handlerStep ⟨0, false⟩ inflate st mhd).1 =
        ⟨toInt32 (st.iteration + 1), st.outputs ++ [mhd ++ "\n"], st.shutdownCalled⟩ := by
      unfold handlerStep
      rw [if_neg (by rintro ⟨h0, -⟩; exact h0 rfl)]
      rfl
    rw [hstep]
    obtain ⟨h1, h2⟩ :=
      ih ⟨toInt32 (st.iteration + 1), st.outputs ++ [mhd ++ "\n"], st.shutdownCalled⟩
    refine ⟨?_, by rw [h2]⟩
    rw [h1]
    simp

/-- C9 (counterexample): with `--number` equal to `2^31` (a positive `int`),
the Go `int32` conversion wraps to `-2^31`, so the very first delivered
message triggers supervisor shutdown and nothing is printed — the claim that
every delivered message is printed until N have been printed fails. -/
theorem tail_number_int32_counterexample :
    (tailRun ⟨2147483648, false⟩ idInflate ["a"]).outputs = [] ∧
    (tailRun ⟨2147483648, false⟩ idInflate ["a"]).shutdownCalled = true := by
  constructor <;> rfl

/-- C9 (amended): for the tail CLI with `--number N`, `0 < N < 2^31`, and at
least `N` delivered messages, exactly `N` messages are written to standard
output (the first `N`, each followed by a newline), and the supervisor is
shut down exactly when some message is delivered after the count reached `N`. -/
theorem tail_number_prints_exactly (n : Nat)
    (inflate : String → Except String String) (msgs : List String)
    (hn : 0 < n) (h31 : n < 2 ^ 31) (hlen : n ≤ msgs.length) :
    (tailRun ⟨(n : Int), false⟩ inflate msgs).outputs =
      (msgs.take n).map (· ++ "\n") ∧
    (tailRun ⟨(n : Int), false⟩ inflate msgs).outputs.length = n ∧
    ((tailRun ⟨(n : Int), false⟩ inflate msgs).shutdownCalled ↔ n < msgs.length) := by
  unfold tailRun
  have hfold := tail_fold_spec n (Nat.pos_iff_ne_zero.mp hn) h31 inflate msgs [] 0 false
    (Nat.zero_le n)
  simp only [Nat.cast_zero] at hfold
  rw [hfold]
  refine ⟨by simp, ?_, ?_⟩
  · simp [List.length_take, Nat.min_eq_left hlen]
  · simp

/-- Witness for the amended C9: `--number 2` on three delivered messages
prints exactly the first two and shuts the supervisor down. -/
theorem tail_number_prints_exactly_witness :
    (tailRun ⟨((2 : Nat) : Int), false⟩ idInflate ["a", "b", "c"]).outputs =
      ((["a", "b", "c"].take 2).map (· ++ "\n")) ∧
    (tailRun ⟨((2 : Nat) : Int), false⟩ idInflate ["a", "b", "c"]).outputs.length = 2 ∧
    ((tailRun ⟨((2 : Nat) : Int), false⟩ idInflate ["a", "b", "c"]).shutdownCalled ↔
      2 < (["a", "b", "c"] : List String).length) :=
  tail_number_prints_exactly 2 idInflate ["a", "b", "c"] (by decide) (by decide) (by decide)

/-- C10: with `--number` left at its default value 0, the tail handler never
triggers supervisor shutdown, and every delivered message is written to
standard output followed by a newline. -/
theorem tail_default_number_prints_all (inflate : String → Except String String)
    (msgs : List String) :
    (tailRun ⟨0, false⟩ inflate msgs).outputs = msgs.map (· ++ "\n") ∧
    (tailRun ⟨0, false⟩ inflate msgs).shutdownCalled = false := by
  unfold tailRun
  obtain ⟨h1, h2⟩ := tail_zero_fold inflate msgs ⟨0, [], false⟩
  exact ⟨by simpa using h1, by simpa using h2⟩

end Tail

namespace GoKinesis

/-- C3 (counterexample to the lifetime form): two consecutive ticks of a
runner under `AfterRecord` whose handler accepts `s1` and rejects `s2`.  The
first tick checkpoints `s1` and keeps the iterator because `s2` failed; the
second tick re-fetches the same batch and writes `Set s1` again, so the
sequence numbers written over the runner's lifetime are `s1, s1` — not
strictly increasing. -/
theorem process_checkpoint_sets_lifetime_counterexample :
    setsOf replayTrace = ["s1", "s1"] ∧
    ¬ List.Pairwise (· < ·) ("s0" :: setsOf replayTrace) := by
  have hsets : setsOf replayTrace = ["s1", "s1"] := rfl
  refine ⟨hsets, ?_⟩
  rw [hsets]
  intro h
  have h1 : List.Pairwise (· < ·) (["s1", "s1"] : List String) :=
    (List.pairwise_cons.mp h).2
  have h2 : ("s1" : String) < "s1" :=
    (List.pairwise_cons.mp h1).1 "s1" (List.mem_singleton.mpr rfl)
  exact lt_irrefl _ h2

end GoKinesis
